import Mathlib

/-!
Verification model of the Tempo-Booker worklog reconciliation engine.

The definitions below are a shallow embedding of the JavaScript source:
`TimeTrackingController` (normalizeWorklogData, parseCSV, validateTimeConflicts,
validateWorklogsForImport, validateAgainstExistingWorklogs,
categorizeWorklogOperations, executeWorklogOperations, executeReplaceOperations,
bulkCreateWorklogs) and the issue resolvers (StaticIssueResolver.resolveIssue,
IssueResolver.resolveIssue).

Conventions used throughout:
* JavaScript strings that may be `undefined` are modelled as `Option String`
  (`none` = the property is absent / `undefined`).
* JavaScript numbers are `Rat`; a number that may be `NaN` is `Option Rat`
  (`none` = `NaN`).
* `moment(s, fmt, true)` (strict parsing) and `moment(s, fmt)` (lenient
  parsing) are modelled by explicit parsers over the character list of the
  string; an invalid moment is `none`, and comparisons against an invalid
  moment are `false`, exactly as `isBefore`/`isAfter` behave on invalid
  moments.
* All datetime comparisons in the source happen between moments that share
  the same calendar-date string, so a moment is represented by its
  seconds-of-day offset (an end obtained by adding `timeSpentSeconds` may
  exceed 86400, which is still correctly ordered on the shared day).
-/

namespace TempoBooker

/-! ### JavaScript value helpers -/

/-- Truthiness of a possibly-absent JS string: `undefined` and `""` are falsy. -/
def jsTruthy : Option String → Bool
  | some s => s ≠ ""
  | none => false

/-- JS `a || b` where `a` is a possibly-absent string and `b` a fallback string. -/
def jsOrS (a : Option String) (d : String) : String :=
  match a with
  | some s => if s = "" then d else s
  | none => d

/-- JS `a || b` for a plain string `a` (empty string falls through). -/
def jsOrStr (a : String) (d : String) : String :=
  if a = "" then d else a

/-- JS `a || b` keeping the option: used for chains like
`data.issue || data.issueKey || data.key`. -/
def jsOrOpt (a : Option String) (b : Option String) : Option String :=
  match a with
  | some s => if s = "" then b else some s
  | none => b

/-- JS strict equality `===` between two string values each of which may be
`null`/`undefined`: equality holds only when both are strings and equal
(`undefined === null` and `undefined === "x"` are `false`). -/
def jsStrictEq : Option String → Option String → Bool
  | some a, some b => a == b
  | _, _ => false

/-- JS template interpolation of a possibly-undefined string
(the literal text "undefined" is produced for an absent value). -/
def jsTemplate : Option String → String
  | some s => s
  | none => "undefined"

/-- A JavaScript number that arises in this controller: an exact rational
`num / den` with positive denominator (every number the code computes is a
quotient of integers: parsed decimals, quarter-hours, seconds / 3600).
Kept unreduced so that all arithmetic is plain integer arithmetic. -/
structure JNum where
  num : Int
  den : Nat
deriving Repr, DecidableEq

/-- JS `x <= 0` where `x` may be `NaN` (`NaN <= 0` is `false`); the
denominator is positive by construction, so only the numerator's sign
matters. -/
def jsLeZero : Option JNum → Bool
  | some h => h.num ≤ 0
  | none => false

/-- JS `Math.round` on an exact rational: `floor(x + 1/2)`, which for
`n / d` with `d > 0` is `(2n + d) fdiv (2d)`. -/
def jsRound (x : JNum) : Int :=
  Int.fdiv (2 * x.num + (x.den : Int)) (2 * (x.den : Int))

/-- Multiply a JS number by a natural constant (used for `hours * 3600`). -/
def jnumMulNat (x : JNum) (k : Nat) : JNum :=
  ⟨x.num * (k : Int), x.den⟩

/-- Code-unit lexicographic comparison of character lists (structural,
kernel-friendly). -/
def charsLt : List Char → List Char → Bool
  | [], [] => false
  | [], _ :: _ => true
  | _ :: _, [] => false
  | a :: as, b :: bs =>
    if a.toNat < b.toNat then true
    else if b.toNat < a.toNat then false
    else charsLt as bs

/-- JS string `<` (code-unit lexicographic order, which for the ASCII date
and time strings compared by the source coincides with their chronological
order). -/
def strLt (a b : String) : Bool := charsLt a.toList b.toList

/-- JS string `<=`: the negation of the reversed `<`. -/
def strLe (a b : String) : Bool := ¬ strLt b a

/-! ### Digit / numeral helpers -/

def digitsToNat (cs : List Char) : Nat :=
  cs.foldl (fun n c => n * 10 + (c.toNat - 48)) 0

def allDigits (cs : List Char) : Bool :=
  cs.all Char.isDigit

/-- Split a character list on a separator character (structural recursion,
kernel-friendly replacement for String.splitOn). -/
def splitOnChar (sep : Char) : List Char → List (List Char)
  | [] => [[]]
  | c :: cs =>
    let r := splitOnChar sep cs
    if c = sep then [] :: r
    else
      match r with
      | y :: ys => (c :: y) :: ys
      | [] => [[c]]

/-- JS `parseFloat` on a string: parse an optional sign followed by a decimal
numeral prefix; `none` models `NaN`.  (The exponent form is not used by any
input the controller handles and is not modelled.) -/
def parseFloatStr (s : String) : Option JNum :=
  let cs := s.toList.dropWhile (fun c => c = ' ')
  let (sign, rest) :=
    match cs with
    | '-' :: r => ((-1 : Int), r)
    | '+' :: r => ((1 : Int), r)
    | r => ((1 : Int), r)
  let intPart := rest.takeWhile Char.isDigit
  let rest2 := rest.drop intPart.length
  let fracPart :=
    match rest2 with
    | '.' :: r => r.takeWhile Char.isDigit
    | _ => []
  if intPart.isEmpty ∧ fracPart.isEmpty then none
  else
    some ⟨sign * ((digitsToNat intPart * 10 ^ fracPart.length +
      digitsToNat fracPart : Nat) : Int), 10 ^ fracPart.length⟩

/-- JS `parseInt` on a string: optional sign and leading digits; `none` = `NaN`. -/
def parseIntStr (s : String) : Option Int :=
  let cs := s.toList.dropWhile (fun c => c = ' ')
  let (sign, rest) :=
    match cs with
    | '-' :: r => ((-1 : Int), r)
    | '+' :: r => ((1 : Int), r)
    | r => ((1 : Int), r)
  let ds := rest.takeWhile Char.isDigit
  if ds.isEmpty then none else some (sign * (digitsToNat ds : Int))

/-! ### Calendar and time-of-day parsing (model of moment.js) -/

def isLeapYear (y : Nat) : Bool :=
  (y % 4 == 0 && y % 100 != 0) || y % 400 == 0

def daysInMonth (y m : Nat) : Nat :=
  if m = 2 then (if isLeapYear y then 29 else 28)
  else if m = 4 ∨ m = 6 ∨ m = 9 ∨ m = 11 then 30
  else 31

/-- Strict date validity: model of `moment(s, "YYYY-MM-DD", true).isValid()`.
Exactly ten characters, all-digit components, real calendar date. -/
def strictDateValid (s : String) : Bool :=
  match s.toList with
  | [y1, y2, y3, y4, '-', m1, m2, '-', d1, d2] =>
    allDigits [y1, y2, y3, y4, m1, m2, d1, d2] &&
      (let y := digitsToNat [y1, y2, y3, y4]
       let m := digitsToNat [m1, m2]
       let d := digitsToNat [d1, d2]
       1 ≤ m && m ≤ 12 && 1 ≤ d && d ≤ daysInMonth y m)
  | _ => false

/-- Strict time-of-day parse: model of `moment(s, "HH:mm:ss", true)`, giving
the seconds-of-day offset of the resulting moment. -/
def strictTimeSecs (s : String) : Option Nat :=
  match s.toList with
  | [h1, h2, ':', m1, m2, ':', s1, s2] =>
    if allDigits [h1, h2, m1, m2, s1, s2] then
      let h := digitsToNat [h1, h2]
      let m := digitsToNat [m1, m2]
      let sec := digitsToNat [s1, s2]
      if h ≤ 23 ∧ m ≤ 59 ∧ sec ≤ 59 then some (h * 3600 + m * 60 + sec)
      else none
    else none
  | _ => none

/-- Lenient numeric component: nonempty all-digit run. -/
def lenientNat (cs : List Char) : Option Nat :=
  if cs.isEmpty then none
  else if allDigits cs then some (digitsToNat cs) else none

/-- Lenient date validity: model of the date part of
`moment(s, "YYYY-MM-DD ...")` without strict mode: dash-separated numeric
components forming a real calendar date (component widths are flexible). -/
def lenientDateValid (s : String) : Bool :=
  match splitOnChar '-' s.toList with
  | [ys, ms, ds] =>
    match lenientNat ys, lenientNat ms, lenientNat ds with
    | some y, some m, some d =>
      1 ≤ m && m ≤ 12 && 1 ≤ d && d ≤ daysInMonth y m
    | _, _, _ => false
  | _ => false

/-- Lenient time-of-day parse: model of the `HH:mm:ss` part of a non-strict
moment parse: colon-separated numeric components, missing trailing components
default to zero, each component must be in range. -/
def lenientTimeSecs (s : String) : Option Nat :=
  let pack (h m sec : Nat) : Option Nat :=
    if h ≤ 23 ∧ m ≤ 59 ∧ sec ≤ 59 then some (h * 3600 + m * 60 + sec) else none
  match splitOnChar ':' s.toList with
  | [hs] =>
    match lenientNat hs with
    | some h => pack h 0 0
    | none => none
  | [hs, ms] =>
    match lenientNat hs, lenientNat ms with
    | some h, some m => pack h m 0
    | _, _ => none
  | [hs, ms, ss] =>
    match lenientNat hs, lenientNat ms, lenientNat ss with
    | some h, some m, some sec => pack h m sec
    | _, _, _ => none
  | _ => none

/-- Model of `moment(date ++ " " ++ time, "YYYY-MM-DD HH:mm:ss")` (non-strict):
the moment is valid when both parts parse; its value is the seconds-of-day
offset (every comparison in the source is between moments sharing the same
date string, so the day offset cancels). -/
def lenientDT (d t : String) : Option Nat :=
  if lenientDateValid d then lenientTimeSecs t else none

/-! ### Data model -/

/-- A raw row as produced by `parseCSV`'s header mapping (or a JSON entry):
every field is a possibly-absent string. -/
structure RawRow where
  date : Option String := none
  startDate : Option String := none
  startTime : Option String := none
  time : Option String := none
  endTime : Option String := none
  issue : Option String := none
  issueKey : Option String := none
  key : Option String := none
  description : Option String := none
  comment : Option String := none
  hours : Option String := none
  timeSpent : Option String := none
  delete : Option String := none
deriving Repr, DecidableEq

/-- The canonical entry produced by `normalizeWorklogData`. -/
structure WorklogEntry where
  issueKey : String
  hours : Option JNum
  description : String
  startDate : String
  startTime : String
  endTime : Option String
  shouldDelete : Bool
deriving Repr, DecidableEq

/-- Model of `normalizeWorklogData(data)`: converts a raw row into a canonical entry,
returning `none` for every rejected (malformed) row.  The JS body is wrapped
in try/catch returning null, so the function never throws; this totality is
reflected by the `Option` result. -/
def normalizeWorklogData (data : RawRow) : Option WorklogEntry :=
  let startTime := jsOrS (jsOrOpt data.startTime data.time) "09:00:00"
  let shouldDelete :=
    data.delete == some "true" || data.delete == some "1" || data.delete == some "yes"
  -- hours computation; `none` at this stage = the row is rejected inside the
  -- time-range branch (invalid format or end not after start)
  let hoursStep : Option (Option JNum) :=
    if jsTruthy data.startTime ∧ jsTruthy data.endTime then
      let dstr := jsTemplate data.date
      match lenientDT dstr (jsTemplate data.startTime),
            lenientDT dstr (jsTemplate data.endTime) with
      | some st, some en =>
        if en ≤ st then none   -- end.isSameOrBefore(start): reject
        else
          -- hours = end.diff(start, "hours", true), rounded to the nearest
          -- quarter: Math.round(diff / 3600 * 4) / 4, computed exactly as an
          -- integer quarter-hour count over 4
          some (some ⟨jsRound ⟨4 * ((en : Int) - (st : Int)), 3600⟩, 4⟩)
      | _, _ => none           -- invalid time format: reject
    else
      -- fallback: parseFloat(data.hours || data.timeSpent || 0)
      some (match jsOrOpt data.hours data.timeSpent with
            | some s => parseFloatStr s
            | none => some ⟨0, 1⟩)
  match hoursStep with
  | none => none
  | some hoursV =>
    match jsOrOpt data.issue (jsOrOpt data.issueKey data.key),
          jsOrOpt data.date data.startDate with
    | some ik, some sd =>
      if ¬ shouldDelete ∧ jsLeZero hoursV then none
      else if ¬ strictDateValid sd then none
      else
        some { issueKey := ik
               hours := hoursV
               description := jsOrS (jsOrOpt data.description data.comment) ""
               startDate := sd
               startTime := startTime
               endTime := data.endTime
               shouldDelete := shouldDelete }
    | _, _ => none   -- missing issueKey or date: reject

/-- The normalization half of `parseCSV`: each raw row is normalized, rows
rejected by the normalizer are skipped, and the loop continues. -/
def parsedEntries (rows : List RawRow) : List WorklogEntry :=
  rows.filterMap normalizeWorklogData

/-! ### Internal conflict pass (`validateTimeConflicts`) -/

/-- The `wl.startTime && wl.endTime` truthiness check on a normalized entry. -/
def entryTimesPresent (e : WorklogEntry) : Bool :=
  e.startTime ≠ "" && jsTruthy e.endTime

/-- Number of "invalid entry" findings for a single entry in the individual
validation loop of `validateTimeConflicts` (date format, time formats, end
after start). -/
def invalidFindings (e : WorklogEntry) : Nat :=
  (if strictDateValid e.startDate then 0 else 1) +
  (if entryTimesPresent e then
    let sOk := strictTimeSecs e.startTime
    let eOk := strictTimeSecs (jsTemplate e.endTime)
    (if sOk.isSome then 0 else 1) +
    (if eOk.isSome then 0 else 1) +
    (match sOk, eOk with
     | some st, some en => if en ≤ st then 1 else 0   -- !end.isAfter(start)
     | _, _ => 0)
  else 0)

def invalidEntriesTotal (ws : List WorklogEntry) : Nat :=
  ws.foldl (fun n e => n + invalidFindings e) 0

/-- Append an entry to an insertion-ordered group list keyed by date:
model of pushing into `worklogsByDate[wl.startDate]` with JS object keys
keeping first-insertion order. -/
def addToGroups (d : String) (e : WorklogEntry) :
    List (String × List WorklogEntry) → List (String × List WorklogEntry)
  | [] => [(d, [e])]
  | (k, l) :: rest =>
    if k = d then (k, l ++ [e]) :: rest else (k, l) :: addToGroups d e rest

/-- Model of the `worklogsByDate` grouping: only entries that are not
delete-flagged and carry truthy start and end times take part. -/
def worklogsByDate (ws : List WorklogEntry) : List (String × List WorklogEntry) :=
  ws.foldl
    (fun gs e =>
      if ¬ e.shouldDelete ∧ entryTimesPresent e then addToGroups e.startDate e gs else gs)
    []

/-- Stable insertion into a start-time-sorted list (new element goes after
equal keys, as a stable JS `sort` by `localeCompare` would keep it). -/
def insertByStart (e : WorklogEntry) : List WorklogEntry → List WorklogEntry
  | [] => [e]
  | x :: xs =>
    if strLe x.startTime e.startTime then x :: insertByStart e xs else e :: x :: xs

/-- Model of `dayWorklogs.sort((a, b) => a.startTime.localeCompare(b.startTime))`:
a stable ascending sort by the start time string. -/
def sortByStart (l : List WorklogEntry) : List WorklogEntry :=
  l.foldl (fun acc e => insertByStart e acc) []

/-- The body of the pairwise loop of `validateTimeConflicts`: build the four
moments from the date and the entries' time strings (non-strict parse) and
check `start1.isBefore(end2) && start2.isBefore(end1)`.  Comparisons against
an invalid moment are false. -/
def pairConflict (date : String) (w1 w2 : WorklogEntry) : Bool :=
  match lenientDT date w1.startTime, lenientDT date (jsTemplate w1.endTime),
        lenientDT date w2.startTime, lenientDT date (jsTemplate w2.endTime) with
  | some s1, some e1, some s2, some e2 => s1 < e2 ∧ s2 < e1
  | _, _, _, _ => false

/-- Conflicts found by the double loop over one date's (sorted) worklogs:
every ordered pair `(i, j)` with `i < j` that satisfies `pairConflict`. -/
def dayConflictCount (date : String) : List WorklogEntry → Nat
  | [] => 0
  | x :: xs => xs.countP (fun y => pairConflict date x y) + dayConflictCount date xs

/-- Total internal conflict count of `validateTimeConflicts`: group the
eligible entries by date, sort each day by start time and count the
overlapping pairs. -/
def conflictTotal (ws : List WorklogEntry) : Nat :=
  (worklogsByDate ws).foldl (fun n g => n + dayConflictCount g.1 (sortByStart g.2)) 0

def invalidEntriesMsg (n : Nat) : String :=
  "Found " ++ toString n ++ " invalid entries in CSV data"

def conflictMsg (n : Nat) : String :=
  "Found " ++ toString n ++ " time conflict(s) in CSV data"

/-- Model of `validateTimeConflicts(worklogs)`: throws (models as `Except.error`) when
individual validation finds invalid entries, then throws when any overlapping
pair exists; otherwise returns normally. -/
def validateTimeConflicts (ws : List WorklogEntry) : Except String Unit :=
  if invalidEntriesTotal ws > 0 then .error (invalidEntriesMsg (invalidEntriesTotal ws))
  else if conflictTotal ws > 0 then .error (conflictMsg (conflictTotal ws))
  else .ok ()

/-! ### Remote worklogs, configuration, issue-key extraction -/

structure WorklogAuthor where
  accountId : Option String
deriving Repr, DecidableEq

structure WorklogIssue where
  key : Option String
  id : Option Nat
deriving Repr, DecidableEq

/-- A worklog record fetched from the remote store. -/
structure RemoteWorklog where
  tempoWorklogId : Nat
  startDate : String
  startTime : Option String
  timeSpentSeconds : Nat
  description : Option String
  author : Option WorklogAuthor
  authorAccountId : Option String
  issueKey : Option String
  issue : Option WorklogIssue
deriving Repr, DecidableEq

structure IssueInfo where
  id : String
  summary : String
deriving Repr, DecidableEq

/-- The slice of the YAML config the controller consults. -/
structure Config where
  userAccountId : Option String
  issueMapping : List (String × IssueInfo)
deriving Repr, DecidableEq

/-- Association-list get: first binding for the key (model of `Map.get`). -/
def aGet {α : Type} (m : List (String × α)) (k : String) : Option α :=
  (m.find? (fun p => p.1 == k)).map (fun p => p.2)

/-- Association-list set (model of `Map.set`): replace the binding in place
when the key exists, else append. -/
def aSet {α : Type} (m : List (String × α)) (k : String) (v : α) :
    List (String × α) :=
  if m.any (fun p => p.1 == k) then
    m.map (fun p => if p.1 == k then (k, v) else p)
  else m ++ [(k, v)]

/-- First match of the regex `([A-Z]+-\d+)` starting exactly at the head of
the character list: a maximal nonempty run of uppercase letters, a dash, a
maximal nonempty run of digits.  (Shrinking the greedy `[A-Z]+` run can never
help, because the character after a shorter run is an uppercase letter, not
the required dash, so no backtracking case is lost.) -/
def issueKeyMatchAt (cs : List Char) : Option String :=
  let us := cs.takeWhile (fun c => 'A' ≤ c ∧ c ≤ 'Z')
  if us.isEmpty then none
  else
    match cs.drop us.length with
    | '-' :: rest =>
      let ds := rest.takeWhile Char.isDigit
      if ds.isEmpty then none
      else some (String.mk (us ++ '-' :: ds))
    | _ => none

/-- Leftmost match of `([A-Z]+-\d+)`: model of
`description.match(/([A-Z]+-\d+)/)`. -/
def findIssueKeyPattern : List Char → Option String
  | [] => none
  | c :: cs =>
    match issueKeyMatchAt (c :: cs) with
    | some m => some m
    | none => findIssueKeyPattern cs

/-- Model of `extractIssueKeyFromWorklog(worklog)`: issue.key, then a description
pattern match (unless anonymized), then a reverse id lookup in the configured
issue mapping, then the "Team Daily" heuristic, then
`worklog.issueKey || "UNKNOWN"`. -/
def extractIssueKeyFromWorklog (cfg : Config) (w : RemoteWorklog) : String :=
  let fromIssueKey : Option String :=
    match w.issue with
    | some iss =>
      match iss.key with
      | some k => if k = "" then none else some k
      | none => none
    | none => none
  match fromIssueKey with
  | some k => k
  | none =>
    let fromDesc : Option String :=
      match w.description with
      | some d =>
        if d ≠ "" ∧ d ≠ "worklog.description.anonymized" then
          findIssueKeyPattern d.toList
        else none
      | none => none
    match fromDesc with
    | some k => k
    | none =>
      let fromId : Option String :=
        match w.issue with
        | some iss =>
          match iss.id with
          | some i =>
            if i = 0 then none   -- numeric 0 is falsy in the truthiness guard
            else (cfg.issueMapping.find? (fun p => p.2.id == toString i)).map
              (fun p => p.1)
          | none => none
        | none => none
      match fromId with
      | some k => k
      | none =>
        if w.description == some "Team Daily" then "DAU-2655"
        else jsOrS w.issueKey "UNKNOWN"

/-! ### Remote-record filter (the "ULTRA-AGGRESSIVE" recency filter) -/

def sentinelAuthor : String := "__tempo-io__unknown_user"

/-- The check `w.author?.accountId === "__tempo-io__unknown_user"`. -/
def isSystemWorklog (w : RemoteWorklog) : Bool :=
  jsStrictEq (w.author.bind (fun a => a.accountId)) (some sentinelAuthor)

/-- The check `w.author?.accountId === authorAccountId || w.authorAccountId === authorAccountId`. -/
def isUserWorklog (authorAccountId : Option String) (w : RemoteWorklog) : Bool :=
  jsStrictEq (w.author.bind (fun a => a.accountId)) authorAccountId ||
  jsStrictEq w.authorAccountId authorAccountId

/-- The cutoff `max(currentYear - 1, 2025) ++ "-01-01"`. -/
def yearCutoff (currentYear : Nat) : String :=
  toString (max (currentYear - 1) 2025) ++ "-01-01"

/-- The filter predicate applied to every fetched remote worklog before
classification (identical in `validateWorklogsForImport`,
`validateAndPreviewWorklogs` and `executeWorklogOperations`):
system worklogs are dropped first, then everything dated before the year
cutoff is dropped, and of the rest only the user's own worklogs and
worklogs dated within the last three days are kept. -/
def keepRecentWorklog (currentYear : Nat) (threeDaysAgo : String)
    (authorAccountId : Option String) (w : RemoteWorklog) : Bool :=
  if isSystemWorklog w then false
  else if strLt w.startDate (yearCutoff currentYear) then false
  else isUserWorklog authorAccountId w || strLe threeDaysAgo w.startDate

def recentWorklogsFilter (currentYear : Nat) (threeDaysAgo : String)
    (authorAccountId : Option String) (ws : List RemoteWorklog) :
    List RemoteWorklog :=
  ws.filter (keepRecentWorklog currentYear threeDaysAgo authorAccountId)

/-! ### External validation pass (`validateAgainstExistingWorklogs`) -/

/-- The (start, end) seconds of an existing worklog's range: `startTime` when
truthy (else the 09:00:00 start-of-day convention), end = start +
`timeSpentSeconds` (`moment.add` of `timeSpentSeconds / 3600` hours is exact).
`none` when the record's date or time string does not parse (invalid moment). -/
def existingRangeSecs (w : RemoteWorklog) : Option (Nat × Nat) :=
  let st := jsOrS w.startTime "09:00:00"
  match lenientDT w.startDate st with
  | some s => some (s, s + w.timeSpentSeconds)
  | none => none

/-- One reported overlap.  The source stores preformatted display strings
whose later re-parsing in `categorizeWorklogOperations`
(`overlap.import.split(" ")[0]` and `...split(" ")[1].split("-")[0]`)
recovers exactly the import entry's date and start time, which are therefore
what the model records. -/
structure OverlapItem where
  importDate : String
  importStartTime : String
deriving Repr, DecidableEq

/-- The object returned by `validateAgainstExistingWorklogs`:
`{ overlaps, conflicts }`.  The `conflicts` array is never pushed to. -/
structure ConflictAnalysis where
  overlaps : List OverlapItem
  conflicts : List OverlapItem
deriving Repr, DecidableEq

/-- Overlap detection of the external pass: for every non-delete import entry
and every existing worklog on the same date, report an overlap unless the
pair is an "exact same entry" (same formatted start, same formatted end and
matching extracted issue key).  `format("HH:mm:ss")` of the end moment wraps
at midnight, hence the `% 86400` on the computed end seconds. -/
def overlapsAgainstExisting (cfg : Config) (batch : List WorklogEntry)
    (existing : List RemoteWorklog) : List OverlapItem :=
  batch.flatMap (fun i =>
    if i.shouldDelete then []
    else
      existing.filterMap (fun w =>
        if i.startDate == w.startDate then
          match lenientDT i.startDate i.startTime,
                lenientDT i.startDate (jsTemplate i.endTime),
                existingRangeSecs w with
          | some is, some ie, some (es, ee) =>
            if is < ee ∧ es < ie then
              let isExactSameEntry :=
                is % 86400 == es % 86400 && ie % 86400 == ee % 86400 &&
                i.issueKey == extractIssueKeyFromWorklog cfg w
              if isExactSameEntry then none
              else some { importDate := i.startDate, importStartTime := i.startTime }
            else none
          | _, _, _ => none
        else none))

/-- JS property access `conflictAnalysis.length` on the analysis object:
`ConflictAnalysis` has no `length` property, so the access yields
`undefined`. -/
def analysisLengthProperty (_ : ConflictAnalysis) : Option Nat := none

/-- JS `x > 0` where `x` may be `undefined` (`undefined > 0` is `false`). -/
def jsGtZero : Option Nat → Bool
  | some n => n > 0
  | none => false

/-! ### Operation classifier (`categorizeWorklogOperations`) -/

/-- Projection of a conflicting remote worklog stored inside a replace
operation.  The branch reached through the precomputed overlap map omits the
`issueKey` field; the other two replace branches include it. -/
structure ConflictRec where
  tempoWorklogId : Nat
  description : Option String
  hours : JNum
  startTime : String
  issueKey : Option String
deriving Repr, DecidableEq

def projConflict (cfg : Config) (withKey : Bool) (w : RemoteWorklog) : ConflictRec :=
  { tempoWorklogId := w.tempoWorklogId
    description := w.description
    hours := ⟨(w.timeSpentSeconds : Int), 3600⟩
    startTime := jsOrS w.startTime "09:00:00"
    issueKey := if withKey then some (extractIssueKeyFromWorklog cfg w) else none }

/-- Overlap of an import entry's range with an existing worklog's range, as
recomputed inline by the classifier
(`importStart.isBefore(existingEnd) && existingStart.isBefore(importEnd)`). -/
def entryOverlapsRec (e : WorklogEntry) (w : RemoteWorklog) : Bool :=
  match lenientDT e.startDate e.startTime,
        lenientDT e.startDate (jsTemplate e.endTime),
        existingRangeSecs w with
  | some is, some ie, some (es, ee) => is < ee ∧ es < ie
  | _, _, _ => false

/-- The "undeleteable" guard used when building the exact-match map and in
the first two replace branches: anonymized (system) worklogs and pre-2025
worklogs of other users are skipped. -/
def isUndeleteable (authorAccountId : Option String) (w : RemoteWorklog) : Bool :=
  isSystemWorklog w ||
  (¬ isUserWorklog authorAccountId w && strLt w.startDate "2025-01-01")

/-- Filter predicate of the two "no exact match" replace branches: same date,
not undeleteable, overlapping range. -/
def deletableConflicting (authorAccountId : Option String) (e : WorklogEntry)
    (w : RemoteWorklog) : Bool :=
  if w.startDate ≠ e.startDate then false
  else if isUndeleteable authorAccountId w then false
  else entryOverlapsRec e w

/-- Filter predicate of the replace branch taken when an exact-key match
exists: same date, not the matched record itself, overlapping range.  Note
that this branch does not re-apply the undeleteable guard. -/
def conflictingBesides (e : WorklogEntry) (r : RemoteWorklog)
    (w : RemoteWorklog) : Bool :=
  w.startDate == e.startDate && w.tempoWorklogId ≠ r.tempoWorklogId &&
  entryOverlapsRec e w

/-- The `(date, startTime, issueKey)` lookup map over the existing worklogs:
undeleteable records are skipped and only records with a usable extracted
issue key are inserted.  A record whose `startTime` property is absent is
keyed with the literal text "undefined" (JS template interpolation). -/
def existingMapStep (cfg : Config) (authorAccountId : Option String)
    (m : List (String × RemoteWorklog)) (w : RemoteWorklog) :
    List (String × RemoteWorklog) :=
  if isUndeleteable authorAccountId w then m
  else
    let k := extractIssueKeyFromWorklog cfg w
    if k ≠ "" ∧ k ≠ "UNKNOWN" then
      aSet m (w.startDate ++ "|" ++ jsTemplate w.startTime ++ "|" ++ k) w
    else m

def buildExistingMap (cfg : Config) (authorAccountId : Option String)
    (existing : List RemoteWorklog) : List (String × RemoteWorklog) :=
  existing.foldl (existingMapStep cfg authorAccountId) []

/-- The overlap map built from a conflict analysis (keyed by
`importDate|importStartTime`, recovered from the stored display string). -/
def buildOverlapMap (overs : List OverlapItem) : List (String × OverlapItem) :=
  overs.foldl (fun m o => aSet m (o.importDate ++ "|" ++ o.importStartTime) o) []

/-- The overlap map of an optional conflict analysis (`null` gives the empty
map, as in the `executeWorklogOperations` call path). -/
def overlapMapOf : Option ConflictAnalysis → List (String × OverlapItem)
  | some a => buildOverlapMap a.overlaps
  | none => []

/-- Classification outcome for one import entry. -/
inductive EntryClass where
  | deleteOp (target : RemoteWorklog)
  | deleteSkipped
  | replaceOp (conflicts : List ConflictRec)
  | addOp
  | noChangeOp
  | updateOp (target : RemoteWorklog)
deriving Repr, DecidableEq

/-- The field-by-field comparison deciding NO CHANGE versus UPDATE. -/
def fieldsAllMatch (cfg : Config) (e : WorklogEntry) (r : RemoteWorklog) : Bool :=
  (match e.hours with
   | some h => jsRound (jnumMulNat h 3600) == (r.timeSpentSeconds : Int)
   | none => false) &&
  (match r.description with
   | some d => e.description == d
   | none => false) &&
  (jsOrStr e.startTime "09:00:00" == jsOrS r.startTime "09:00:00") &&
  (e.startDate == r.startDate) &&
  (e.issueKey == extractIssueKeyFromWorklog cfg r)

/-- The per-entry body of the classification loop.  The two branches that
look for conflicting records when no exact match exists use the same filter
predicate, so they are merged: when the overlap map has a hit the projection
without `issueKey` is used, otherwise the one with it. -/
def classifyEntry (cfg : Config) (authorAccountId : Option String)
    (existing : List RemoteWorklog) (emap : List (String × RemoteWorklog))
    (omap : List (String × OverlapItem)) (e : WorklogEntry) : EntryClass :=
  let exactMatch := aGet emap (e.startDate ++ "|" ++ e.startTime ++ "|" ++ e.issueKey)
  if e.shouldDelete then
    match exactMatch with
    | some r => .deleteOp r
    | none => .deleteSkipped
  else
    match exactMatch with
    | none =>
      let overlapHit := (aGet omap (e.startDate ++ "|" ++ e.startTime)).isSome
      let cws := existing.filter (deletableConflicting authorAccountId e)
      if overlapHit ∧ ¬ cws.isEmpty then
        .replaceOp (cws.map (projConflict cfg false))
      else if ¬ cws.isEmpty then
        .replaceOp (cws.map (projConflict cfg true))
      else .addOp
    | some r =>
      let cws := existing.filter (conflictingBesides e r)
      if ¬ cws.isEmpty then
        .replaceOp ((cws ++ [r]).map (projConflict cfg true))
      else if fieldsAllMatch cfg e r then .noChangeOp
      else .updateOp r

structure DeleteItem where
  entry : WorklogEntry
  tempoWorklogId : Nat
deriving Repr, DecidableEq

structure ReplaceItem where
  newEntry : WorklogEntry          -- the source names this field `import`
  conflictingWorklogs : List ConflictRec
deriving Repr, DecidableEq

structure UpdateItem where
  entry : WorklogEntry
  tempoWorklogId : Nat
  existingHours : JNum
  existingDescription : Option String
deriving Repr, DecidableEq

/-- The classifier's five output bags. -/
structure Operations where
  add : List WorklogEntry
  update : List UpdateItem
  «delete» : List DeleteItem
  replace : List ReplaceItem
  noChange : List WorklogEntry
deriving Repr, DecidableEq

/-- Model of `categorizeWorklogOperations(importWorklogs, existingWorklogs,
authorAccountId, conflictAnalysis)`.  Each loop iteration pushes into at most
one bag, so the bags equal per-class `filterMap`s over the batch in order.
(The `authorAccountId` stamped onto each emitted entry in the source is
carried separately here as the classifier's argument.) -/
def categorizeWorklogOperations (cfg : Config) (authorAccountId : Option String)
    (batch : List WorklogEntry) (existing : List RemoteWorklog)
    (analysis : Option ConflictAnalysis) : Operations :=
  let emap := buildExistingMap cfg authorAccountId existing
  let omap := overlapMapOf analysis
  let classOf := classifyEntry cfg authorAccountId existing emap omap
  { add := batch.filterMap (fun e =>
      match classOf e with
      | .addOp => some e
      | _ => none)
    update := batch.filterMap (fun e =>
      match classOf e with
      | .updateOp r =>
        some ⟨e, r.tempoWorklogId, ⟨(r.timeSpentSeconds : Int), 3600⟩, r.description⟩
      | _ => none)
    «delete» := batch.filterMap (fun e =>
      match classOf e with
      | .deleteOp r => some { entry := e, tempoWorklogId := r.tempoWorklogId }
      | _ => none)
    replace := batch.filterMap (fun e =>
      match classOf e with
      | .replaceOp cs => some { newEntry := e, conflictingWorklogs := cs }
      | _ => none)
    noChange := batch.filterMap (fun e =>
      match classOf e with
      | .noChangeOp => some e
      | _ => none) }

/-! ### Executor and remote-call traces -/

/-- One call issued against the remote store abstraction. -/
inductive RemoteCall where
  | getCurrentUser
  | getAuthorFromWorklogs
  | getWorklogs (dateFrom dateTo : Option String) (author : Option String)
  | createWorklog (issueKey : String) (hours : Option JNum)
      (startDate startTime description : String)
  | updateWorklog (tempoWorklogId : Nat) (issueKey : String) (hours : Option JNum)
      (startDate startTime description : String)
  | deleteWorklog (tempoWorklogId : Nat)
deriving Repr, DecidableEq

/-- The `createWorklogWithStatic` call made for one entry by the ADD executor
and by the create step of the REPLACE executor. -/
def createCallOf (e : WorklogEntry) : RemoteCall :=
  .createWorklog e.issueKey e.hours e.startDate e.startTime e.description

/-- Remote calls of `executeDeleteOperations` (per-item failures are caught
and never abort the loop, so every item's call is attempted). -/
def executeDeleteTrace (ops : List DeleteItem) : List RemoteCall :=
  ops.map (fun d => .deleteWorklog d.tempoWorklogId)

/-- Remote calls of `executeReplaceOperations`: for each replace operation,
the conflicting worklogs are first pre-filtered by the id safety check
(`worklogId < 1374000` worklogs are skipped as known undeleteable), a delete
call is attempted for each survivor, and the new worklog is then created. -/
def executeReplaceTrace (ops : List ReplaceItem) : List RemoteCall :=
  ops.flatMap (fun r =>
    ((r.conflictingWorklogs.filter (fun c => ¬ c.tempoWorklogId < 1374000)).map
      (fun c => RemoteCall.deleteWorklog c.tempoWorklogId)) ++
    [createCallOf r.newEntry])

def executeAddTrace (ops : List WorklogEntry) : List RemoteCall :=
  ops.map createCallOf

def executeUpdateTrace (ops : List UpdateItem) : List RemoteCall :=
  ops.map (fun u =>
    .updateWorklog u.tempoWorklogId u.entry.issueKey u.entry.hours
      u.entry.startDate u.entry.startTime u.entry.description)

/-- Remote calls of `bulkCreateWorklogs` (the minimal-approach fallback):
one create call per entry, with the start time and description defaults of
that function; no classification happens. -/
def bulkCreateTrace (ws : List WorklogEntry) : List RemoteCall :=
  ws.map (fun w =>
    .createWorklog w.issueKey w.hours w.startDate
      (jsOrStr w.startTime "09:00:00")
      (jsOrStr w.description ("Working on " ++ w.issueKey)))

/-- The injectable behaviour of the remote services for one run. -/
structure ApiEnv where
  currentUser : Except String String                -- accountId or a thrown error
  authorFromWorklogs : Except String (Option String)
  worklogs : Except String (List RemoteWorklog)
  currentYear : Nat
  threeDaysAgo : String

/-- Model of `importWorklogs.map(w => w.startDate).sort()` and taking the first and
last element: the lexicographic minimum and maximum date (both absent for an
empty batch). -/
def sortedDateRange (ws : List WorklogEntry) : Option String × Option String :=
  ws.foldl
    (fun p e =>
      match p with
      | (none, none) => (some e.startDate, some e.startDate)
      | (some lo, some hi) =>
        (some (if strLt e.startDate lo then e.startDate else lo),
         some (if strLt hi e.startDate then e.startDate else hi))
      | _ => p)
    (none, none)

def exceptIsOk {ε α : Type} : Except ε α → Bool
  | .ok _ => true
  | .error _ => false

/-- The preliminary phase of `executeWorklogOperations`: resolve the author
account (current user, else extraction from worklogs, throwing when neither
yields a truthy id). -/
def executeAuthorPhase (env : ApiEnv) : Except String String × List RemoteCall :=
  match env.currentUser with
  | .ok a => (.ok a, [.getCurrentUser])
  | .error _ =>
    match env.authorFromWorklogs with
    | .ok (some a) =>
      if a = "" then
        (.error "Cannot determine author account ID",
         [.getCurrentUser, .getAuthorFromWorklogs])
      else (.ok a, [.getCurrentUser, .getAuthorFromWorklogs])
    | .ok none =>
      (.error "Cannot determine author account ID",
       [.getCurrentUser, .getAuthorFromWorklogs])
    | .error e => (.error e, [.getCurrentUser, .getAuthorFromWorklogs])

/-- Outcome of `executeWorklogOperations`: the categorized operations were
executed, or an error in the preliminary phase diverted the whole batch to
`bulkCreateWorklogs`. -/
inductive ExecOutcome where
  | completed (ops : Operations)
  | fallbackBulk (ws : List WorklogEntry)
deriving Repr, DecidableEq

/-- The remote calls made before per-item processing can begin: the author
phase calls plus, when the author resolved, the fetch of existing worklogs. -/
def prelimCalls (env : ApiEnv) (batch : List WorklogEntry) : List RemoteCall :=
  match executeAuthorPhase env with
  | (.error _, t) => t
  | (.ok a, t) =>
    let dr := sortedDateRange batch
    t ++ [.getWorklogs dr.1 dr.2 (some a)]

/-- Whether the preliminary phase of `executeWorklogOperations` throws. -/
def prelimFails (env : ApiEnv) : Bool :=
  ¬ exceptIsOk (executeAuthorPhase env).1 || ¬ exceptIsOk env.worklogs

/-- Model of `executeWorklogOperations(importWorklogs)`: determine the author, fetch
and filter existing worklogs, categorize (with a null conflict analysis) and
execute the four bags in order delete, replace, add, update.  Any error up to
categorization is caught and the whole batch is diverted to
`bulkCreateWorklogs`. -/
def executeWorklogOperationsModel (env : ApiEnv) (cfg : Config)
    (batch : List WorklogEntry) : ExecOutcome × List RemoteCall :=
  match executeAuthorPhase env with
  | (.error _, t) => (.fallbackBulk batch, t ++ bulkCreateTrace batch)
  | (.ok a, t) =>
    let dr := sortedDateRange batch
    let fetchCall := RemoteCall.getWorklogs dr.1 dr.2 (some a)
    match env.worklogs with
    | .error _ => (.fallbackBulk batch, t ++ [fetchCall] ++ bulkCreateTrace batch)
    | .ok allWs =>
      let recent := recentWorklogsFilter env.currentYear env.threeDaysAgo (some a) allWs
      let ops := categorizeWorklogOperations cfg (some a) batch recent none
      (.completed ops,
       t ++ [fetchCall] ++ executeDeleteTrace ops.delete ++
         executeReplaceTrace ops.replace ++ executeAddTrace ops.add ++
         executeUpdateTrace ops.update)

/-! ### Import validation entry (`validateWorklogsForImport`) -/

/-- The author-resolution step of `validateWorklogsForImport`:
`config.userAccountId`, else the current user, else extraction from worklogs;
an error from the extraction escapes to the outer catch (modelled as
`Except.error ()`). -/
def validateAuthorPhase (env : ApiEnv) (cfg : Config) :
    Except Unit (Option String) × List RemoteCall :=
  match cfg.userAccountId with
  | some a =>
    if a = "" then validateAuthorFallback env else (.ok (some a), [])
  | none => validateAuthorFallback env
where
  validateAuthorFallback (env : ApiEnv) :
      Except Unit (Option String) × List RemoteCall :=
    match env.currentUser with
    | .ok a => (.ok (some a), [.getCurrentUser])
    | .error _ =>
      match env.authorFromWorklogs with
      | .ok r => (.ok r, [.getCurrentUser, .getAuthorFromWorklogs])
      | .error _ => (.error (), [.getCurrentUser, .getAuthorFromWorklogs])

/-- Model of `validateWorklogsForImport(importWorklogs)`: fetch and filter existing
worklogs, run the external pass, and decide whether conflicts block the run.
The decision reads `conflictAnalysis.length`, a property the
returned `{ overlaps, conflicts }` object does not have, so the comparison
`undefined > 0` is false on every successful run.  Any thrown error is
caught and reported as "has conflicts" (`true`). -/
def validateWorklogsForImportModel (env : ApiEnv) (cfg : Config)
    (batch : List WorklogEntry) : Bool × List RemoteCall :=
  match validateAuthorPhase env cfg with
  | (.error _, t) => (true, t)
  | (.ok author, t) =>
    let dr := sortedDateRange batch
    let fetchCall := RemoteCall.getWorklogs dr.1 dr.2 author
    match env.worklogs with
    | .error _ => (true, t ++ [fetchCall])
    | .ok allWs =>
      let recent := recentWorklogsFilter env.currentYear env.threeDaysAgo author allWs
      let analysis : ConflictAnalysis :=
        { overlaps := overlapsAgainstExisting cfg batch recent, conflicts := [] }
      (jsGtZero (analysisLengthProperty analysis), t ++ [fetchCall])

/-- Model of `importWorklogs(filePath)` after file parsing, over the already
header-mapped rows (file-system access is not a remote-store call): normalize
the rows, run the internal conflict pass (`parseCSV` calls
`validateTimeConflicts` before returning), then the import validation, then
the execution phase.  The pair's second component is the complete trace of
remote-store calls. -/
def worklogImportModel (env : ApiEnv) (cfg : Config) (rows : List RawRow) :
    Except String ExecOutcome × List RemoteCall :=
  let ws := parsedEntries rows
  match validateTimeConflicts ws with
  | .error e => (.error e, [])
  | .ok _ =>
    let v := validateWorklogsForImportModel env cfg ws
    if v.1 then (.error "Import cancelled due to validation conflicts", v.2)
    else
      let ex := executeWorklogOperationsModel env cfg ws
      (.ok ex.1, v.2 ++ ex.2)

/-! ### Issue resolvers -/

/-- The value cached and returned by a successful resolution. -/
structure ResolvedIssue where
  id : Option Int
  key : String
  summary : String
  method : String
deriving Repr, DecidableEq

abbrev ResolverCache := List (String × ResolvedIssue)

/-- Model of `StaticIssueResolver.resolveIssue(issueKey)`, instrumented with the
number of static-table consultations the call performs (0 on a cache hit,
1 otherwise).  Returns the result, the updated cache and that count. -/
def staticResolveIssue (cfg : Config) (cache : ResolverCache)
    (issueKey : String) :
    Except String (Option ResolvedIssue) × ResolverCache × Nat :=
  if issueKey = "" then (.error "Issue key is required", cache, 0)
  else
    match aGet cache issueKey with
    | some r => (.ok (some r), cache, 0)
    | none =>
      match aGet cfg.issueMapping issueKey with
      | some info =>
        let r : ResolvedIssue :=
          { id := parseIntStr info.id, key := issueKey,
            summary := info.summary, method := "static" }
        (.ok (some r), aSet cache issueKey r, 1)
      | none => (.ok none, cache, 1)

structure ResolverFlags where
  useConfigMappings : Bool
  useManualMappingHelper : Bool
deriving Repr, DecidableEq

/-- Model of `IssueResolver.resolveFromConfig(issueKey)`. -/
def resolveFromConfig (cfg : Config) (issueKey : String) : Option ResolvedIssue :=
  (aGet cfg.issueMapping issueKey).map (fun info =>
    { id := parseIntStr info.id, key := issueKey,
      summary := info.summary, method := "config" })

/-- Model of `IssueResolver.resolveIssue(issueKey)`, instrumented like
`staticResolveIssue`.  Config-mapping hits are cached; a miss (whether the
manual-mapping helper is enabled or not) returns null without touching the
cache. -/
def resolverResolveIssue (flags : ResolverFlags) (cfg : Config)
    (cache : ResolverCache) (issueKey : String) :
    Except String (Option ResolvedIssue) × ResolverCache × Nat :=
  if issueKey = "" then (.error "Issue key is required", cache, 0)
  else
    match aGet cache issueKey with
    | some r => (.ok (some r), cache, 0)
    | none =>
      let consulted :=
        if flags.useConfigMappings then (resolveFromConfig cfg issueKey, 1)
        else (none, 0)
      match consulted with
      | (some r, n) => (.ok (some r), aSet cache issueKey r, n)
      | (none, n) => (.ok none, cache, n)

/-- The worklog ids targeted for removal by a set of operations: the ids the
DELETE executor deletes plus the conflicting-worklog ids each REPLACE
operation will try to delete. -/
def targetIds (ops : Operations) : List Nat :=
  ops.delete.map (fun d => d.tempoWorklogId) ++
  ops.replace.flatMap (fun r => r.conflictingWorklogs.map (fun c => c.tempoWorklogId))

/-! ## General lemmas about the association-list model -/

theorem aGet_value_mem {α : Type} {m : List (String × α)} {k : String} {v : α}
    (h : aGet m k = some v) : ∃ p ∈ m, p.2 = v := by
  unfold aGet at h
  cases hf : m.find? (fun p => p.1 == k) with
  | none => rw [hf] at h; simp at h
  | some p =>
    rw [hf] at h
    simp only [Option.map_some'] at h
    exact ⟨p, List.mem_of_find?_eq_some hf, by simpa using h⟩

theorem aSet_value_mem {α : Type} {m : List (String × α)} {k : String} {v : α}
    {p : String × α} (h : p ∈ aSet m k v) : p ∈ m ∨ p.2 = v := by
  unfold aSet at h
  split at h
  · obtain ⟨q, hq, hpq⟩ := List.mem_map.1 h
    by_cases hqk : q.1 == k
    · rw [if_pos hqk] at hpq
      right; rw [← hpq]
    · rw [if_neg hqk] at hpq
      left; rw [← hpq]; exact hq
  · rcases List.mem_append.1 h with h1 | h1
    · exact Or.inl h1
    · right; rcases List.mem_singleton.1 h1 with rfl; rfl

theorem aGet_of_not_mem_key {α : Type} {m : List (String × α)} {k : String}
    (h : m.any (fun p => p.1 == k) = false) : aGet m k = none := by
  unfold aGet
  rw [List.find?_eq_none.2]
  · rfl
  · intro p hp
    simpa using (List.any_eq_false.1 h) p hp

theorem aGet_aSet_self {α : Type} (m : List (String × α)) (k : String) (v : α) :
    aGet (aSet m k v) k = some v := by
  unfold aSet
  split
  · rename_i hany
    induction m with
    | nil => simp at hany
    | cons p m ih =>
      by_cases hp : p.1 == k
      · simp only [List.map_cons, if_pos hp]
        simp [aGet, List.find?]
      · simp only [List.any_cons, hp, Bool.false_or] at hany
        simp only [List.map_cons, if_neg hp]
        unfold aGet at ih ⊢
        simp only [List.find?, hp]
        exact ih hany
  · rename_i hany
    rw [Bool.not_eq_true] at hany
    unfold aGet
    induction m with
    | nil => simp [List.find?]
    | cons p m ih =>
      simp only [List.any_cons, Bool.or_eq_false_iff] at hany
      simp only [List.cons_append, List.find?, hany.1]
      exact ih hany.2

/-! ## Provenance lemmas for the classifier -/

theorem existingMapStep_value_mem {cfg : Config} {author : Option String}
    {m : List (String × RemoteWorklog)} {w : RemoteWorklog}
    {p : String × RemoteWorklog} (h : p ∈ existingMapStep cfg author m w) :
    p ∈ m ∨ p.2 = w := by
  simp only [existingMapStep] at h
  split at h
  · exact Or.inl h
  · split at h
    · exact aSet_value_mem h
    · exact Or.inl h

theorem buildExistingMap_aux (cfg : Config) (author : Option String)
    (ws : List RemoteWorklog) :
    ∀ (acc : List (String × RemoteWorklog)) (p : String × RemoteWorklog),
      p ∈ ws.foldl (existingMapStep cfg author) acc → p ∈ acc ∨ p.2 ∈ ws := by
  induction ws with
  | nil => intro acc p h; exact Or.inl h
  | cons w ws ih =>
    intro acc p h
    simp only [List.foldl_cons] at h
    rcases ih _ p h with hacc | hmem
    · rcases existingMapStep_value_mem hacc with h1 | h1
      · exact Or.inl h1
      · exact Or.inr (by rw [h1]; exact List.mem_cons_self w ws)
    · exact Or.inr (List.mem_cons_of_mem w hmem)

theorem buildExistingMap_value_mem {cfg : Config} {author : Option String}
    {ws : List RemoteWorklog} {p : String × RemoteWorklog}
    (h : p ∈ buildExistingMap cfg author ws) : p.2 ∈ ws := by
  rcases buildExistingMap_aux cfg author ws [] p h with h1 | h1
  · simp at h1
  · exact h1

/-- Every record returned by the exact-match lookup is one of the fetched
existing worklogs. -/
theorem exactMatch_mem {cfg : Config} {author : Option String}
    {ws : List RemoteWorklog} {k : String} {r : RemoteWorklog}
    (h : aGet (buildExistingMap cfg author ws) k = some r) : r ∈ ws := by
  obtain ⟨p, hp, hpv⟩ := aGet_value_mem h
  rw [← hpv]
  exact buildExistingMap_value_mem hp

/-- A delete target produced by `classifyEntry` is one of the existing
worklogs given to the classifier. -/
theorem classifyEntry_delete_mem {cfg : Config} {author : Option String}
    {existing : List RemoteWorklog} {omap : List (String × OverlapItem)}
    {e : WorklogEntry} {r : RemoteWorklog}
    (h : classifyEntry cfg author existing (buildExistingMap cfg author existing)
        omap e = .deleteOp r) : r ∈ existing := by
  simp only [classifyEntry] at h
  split at h
  · split at h
    · rename_i r0 heq
      simp only [EntryClass.deleteOp.injEq] at h
      rw [← h]
      exact exactMatch_mem heq
    · simp at h
  · split at h
    · split at h
      · simp at h
      · split at h
        · simp at h
        · simp at h
    · split at h
      · simp at h
      · split at h
        · simp at h
        · simp at h

/-- Every conflicting-worklog id inside a replace emitted by `classifyEntry`
is the id of one of the existing worklogs given to the classifier. -/
theorem classifyEntry_replace_mem {cfg : Config} {author : Option String}
    {existing : List RemoteWorklog} {omap : List (String × OverlapItem)}
    {e : WorklogEntry} {cs : List ConflictRec}
    (h : classifyEntry cfg author existing (buildExistingMap cfg author existing)
        omap e = .replaceOp cs) :
    ∀ c ∈ cs, ∃ w ∈ existing, w.tempoWorklogId = c.tempoWorklogId := by
  have sub : ∀ (withKey : Bool) (p : RemoteWorklog → Bool),
      ((existing.filter p).map (projConflict cfg withKey) = cs) →
      ∀ c ∈ cs, ∃ w ∈ existing, w.tempoWorklogId = c.tempoWorklogId := by
    intro withKey p hcs c hc
    rw [← hcs] at hc
    obtain ⟨w, hw, hwc⟩ := List.mem_map.1 hc
    exact ⟨w, List.mem_of_mem_filter hw, by rw [← hwc]; rfl⟩
  simp only [classifyEntry] at h
  split at h
  · split at h
    · simp at h
    · simp at h
  · split at h
    · split at h
      · simp only [EntryClass.replaceOp.injEq] at h
        exact sub false _ h
      · split at h
        · simp only [EntryClass.replaceOp.injEq] at h
          exact sub true _ h
        · simp at h
    · rename_i r0 heq
      split at h
      · simp only [EntryClass.replaceOp.injEq, List.map_append, List.map_cons,
          List.map_nil] at h
        intro c hc
        rw [← h] at hc
        rcases List.mem_append.1 hc with hc1 | hc1
        · obtain ⟨w, hw, hwc⟩ := List.mem_map.1 hc1
          exact ⟨w, List.mem_of_mem_filter hw, by rw [← hwc]; rfl⟩
        · rcases List.mem_singleton.1 hc1 with rfl
          exact ⟨r0, exactMatch_mem heq, rfl⟩
      · split at h
        · simp at h
        · simp at h

/-! ## Claim C5: the recency filter -/

/-- A worklog the filter keeps is never system-authored. -/
theorem keepRecent_not_system {cy : Nat} {tda : String} {author : Option String}
    {w : RemoteWorklog} (h : keepRecentWorklog cy tda author w = true) :
    isSystemWorklog w = false := by
  unfold keepRecentWorklog at h
  by_cases hs : isSystemWorklog w
  · rw [if_pos hs] at h
    exact absurd h (by simp)
  · simpa using hs

/-- Claim C5, counterexample: a record dated 2024-06-01 (before the cutoff
2025-01-01 obtained from current year 2026) and authored by the current user
is nevertheless dropped by the remote-record filter, although the claim says
a pre-cutoff record authored by the current user is retained. -/
theorem c5_counterexample :
    keepRecentWorklog 2026 "2026-10-08" (some "user-1")
      ⟨7, "2024-06-01", some "09:00:00", 3600, some "old entry",
        some ⟨some "user-1"⟩, some "user-1", some "AB-1", none⟩ = false ∧
    isUserWorklog (some "user-1")
      ⟨7, "2024-06-01", some "09:00:00", 3600, some "old entry",
        some ⟨some "user-1"⟩, some "user-1", some "AB-1", none⟩ = true ∧
    strLt "2024-06-01" (yearCutoff 2026) = true := by
  refine ⟨by decide, by decide, by decide⟩

/-- Claim C5 (amended): the filter excludes every record dated before the
recency cutoff unconditionally (the author exemption does not apply there);
among records on or after the cutoff that are not system-authored, a record
is kept exactly when it is authored by the current user or dated within the
last three days. -/
theorem c5_cutoff_behavior (cy : Nat) (tda : String) (author : Option String)
    (w : RemoteWorklog) :
    (strLt w.startDate (yearCutoff cy) = true →
      keepRecentWorklog cy tda author w = false) ∧
    (isSystemWorklog w = false → strLt w.startDate (yearCutoff cy) = false →
      keepRecentWorklog cy tda author w =
        (isUserWorklog author w || strLe tda w.startDate)) := by
  constructor
  · intro h
    by_cases hs : isSystemWorklog w
    · simp [keepRecentWorklog, hs]
    · simp [keepRecentWorklog, hs, h]
  · intro hs h
    simp [keepRecentWorklog, hs, h]

/-- Witness for `c5_cutoff_behavior` at concrete inputs: a pre-cutoff record
is dropped, and a post-cutoff foreign-authored record reduces to the
user-or-recent test. -/
theorem c5_cutoff_behavior_witness :
    keepRecentWorklog 2026 "2026-10-08" (some "u")
      ⟨7, "2024-06-01", some "09:00:00", 3600, none, none, some "u", none, none⟩ = false ∧
    keepRecentWorklog 2026 "2026-10-08" (some "u")
      ⟨8, "2026-05-01", some "09:00:00", 3600, none, none, some "other", none, none⟩ =
      (isUserWorklog (some "u")
        ⟨8, "2026-05-01", some "09:00:00", 3600, none, none, some "other", none, none⟩ ||
       strLe "2026-10-08" "2026-05-01") :=
  ⟨(c5_cutoff_behavior 2026 "2026-10-08" (some "u") _).1 (by decide),
   (c5_cutoff_behavior 2026 "2026-10-08" (some "u") _).2 (by decide) (by decide)⟩

/-! ## Claim C6: the normalizer skips malformed rows without aborting -/

/-- Claim C6: the normalizer maps every raw row to a canonical entry or
rejects it (it is a total function into an option — the JS body is wrapped in
a catch-all returning null), and a rejected row in the middle of a batch
leaves the processing of all other rows unchanged: the batch result is the
concatenation of the results on the rows before and after it. -/
theorem c6_bad_row_skipped (pre post : List RawRow) (bad : RawRow)
    (h : normalizeWorklogData bad = none) :
    parsedEntries (pre ++ bad :: post) = parsedEntries pre ++ parsedEntries post := by
  unfold parsedEntries
  rw [List.filterMap_append, List.filterMap_cons, h]

def c6goodRow1 : RawRow :=
  ⟨some "2026-03-02", none, some "09:00:00", none, some "11:00:00",
    some "AB-1", none, none, some "w", none, none, none, none⟩

/-- A row missing its mandatory issue key: the normalizer rejects it. -/
def c6badRow : RawRow :=
  ⟨some "2026-03-02", none, some "12:00:00", none, some "13:00:00",
    none, none, none, some "bad", none, none, none, none⟩

def c6goodRow2 : RawRow :=
  ⟨some "2026-03-03", none, some "09:00:00", none, some "10:00:00",
    some "CD-2", none, none, some "v", none, none, none, none⟩

/-- Witness for `c6_bad_row_skipped`: a row missing its issue key is skipped
between two good rows. -/
theorem c6_bad_row_skipped_witness :
    parsedEntries [c6goodRow1, c6badRow, c6goodRow2] =
      parsedEntries [c6goodRow1] ++ parsedEntries [c6goodRow2] :=
  c6_bad_row_skipped [c6goodRow1] [c6goodRow2] c6badRow (by decide)

/-! ## Claim C7: the delete-column comparison -/

/-- Claim C7, counterexample: a row whose delete column is "TRUE" — which
matches "true" case-insensitively, as witnessed by the lowercasing conjunct —
is normalized with `shouldDelete = false`, because the source compares the
column with `===` against the three lowercase spellings only. -/
theorem c7_counterexample :
    (normalizeWorklogData
      ⟨some "2026-03-02", none, none, none, none, some "AB-1", none, none,
        none, none, some "2", none, some "TRUE"⟩).map
      (fun e => e.shouldDelete) = some false ∧
    "TRUE".toList.map Char.toLower = "true".toList := by
  refine ⟨by decide, by decide⟩

/-- Claim C7 (amended): the normalized entry's `shouldDelete` flag is true
exactly when the row's delete column is literally one of the strings "true",
"1", "yes" — the comparison is case-sensitive, so "TRUE" or "Yes" do not set
the flag. -/
theorem c7_shouldDelete_exact (d : RawRow) (e : WorklogEntry)
    (h : normalizeWorklogData d = some e) :
    e.shouldDelete =
      (d.delete == some "true" || d.delete == some "1" || d.delete == some "yes") := by
  simp only [normalizeWorklogData] at h
  repeat' split at h
  all_goals first
    | (injection h with h2; subst h2; rfl)
    | exact absurd h (by simp)

/-- Witness for `c7_shouldDelete_exact`: a row with delete column "true". -/
theorem c7_shouldDelete_exact_witness :
    (⟨"AB-1", some ⟨2, 1⟩, "", "2026-03-02", "09:00:00", none, true⟩ :
        WorklogEntry).shouldDelete =
      ((some "true" : Option String) == some "true" ||
       (some "true" : Option String) == some "1" ||
       (some "true" : Option String) == some "yes") :=
  c7_shouldDelete_exact
    ⟨some "2026-03-02", none, none, none, none, some "AB-1", none, none,
      none, none, some "2", none, some "true"⟩
    ⟨"AB-1", some ⟨2, 1⟩, "", "2026-03-02", "09:00:00", none, true⟩
    (by decide)

/-! ## Claim C8: resolver caching -/

/-- Claim C8, counterexample: with an empty issue mapping, resolving the same
unknown key twice consults the static table on both calls (the consultation
count of each call is 1) and leaves the cache empty: a negative miss is not
cached, so the key is re-resolved. -/
theorem c8_counterexample :
    (staticResolveIssue ⟨none, []⟩ [] "AB-1").2.2 = 1 ∧
    (staticResolveIssue ⟨none, []⟩
      ((staticResolveIssue ⟨none, []⟩ [] "AB-1").2.1) "AB-1").2.2 = 1 ∧
    (staticResolveIssue ⟨none, []⟩ [] "AB-1").1 = .ok none ∧
    (staticResolveIssue ⟨none, []⟩ [] "AB-1").2.1 = [] :=
  ⟨rfl, rfl, rfl, rfl⟩

/-- Claim C8 (amended): the resolvers cache only successful resolutions.
After a successful first resolution the second call with the same key
returns the cached result without consulting the static table (consultation
count 0); a key the table does not contain yields null, leaves the cache
unchanged, and is looked up in the table again on every call (consultation
count 1 each time).  The same holds for the config-mapping path of the
enhanced resolver. -/
theorem c8_cache_behavior (cfg : Config) (cache : ResolverCache) (k : String)
    (hk : k ≠ "") (hmiss : aGet cache k = none) :
    (∀ info : IssueInfo, aGet cfg.issueMapping k = some info →
      (staticResolveIssue cfg cache k).2.2 = 1 ∧
      staticResolveIssue cfg (staticResolveIssue cfg cache k).2.1 k =
        ((staticResolveIssue cfg cache k).1,
         (staticResolveIssue cfg cache k).2.1, 0)) ∧
    (aGet cfg.issueMapping k = none →
      staticResolveIssue cfg cache k = (.ok none, cache, 1) ∧
      ∀ flags : ResolverFlags, flags.useConfigMappings = true →
        resolverResolveIssue flags cfg cache k = (.ok none, cache, 1)) := by
  constructor
  · intro info hfound
    have h1 : staticResolveIssue cfg cache k =
        (.ok (some ⟨parseIntStr info.id, k, info.summary, "static"⟩),
         aSet cache k ⟨parseIntStr info.id, k, info.summary, "static"⟩, 1) := by
      unfold staticResolveIssue
      rw [if_neg hk, hmiss, hfound]
    refine ⟨by rw [h1], ?_⟩
    rw [h1]
    unfold staticResolveIssue
    rw [if_neg hk, aGet_aSet_self]
  · intro hnone
    constructor
    · unfold staticResolveIssue
      rw [if_neg hk, hmiss, hnone]
    · intro flags hflags
      unfold resolverResolveIssue
      rw [if_neg hk, hmiss, hflags]
      simp [resolveFromConfig, hnone]

def c8mapping : Config := ⟨none, [("AB-1", ⟨"123", "s"⟩)]⟩

/-- Witness for `c8_cache_behavior`: a one-entry mapping, hitting both the
cached-after-success case and the never-cached-miss case. -/
theorem c8_cache_behavior_witness :
    ((staticResolveIssue c8mapping [] "AB-1").2.2 = 1 ∧
     staticResolveIssue c8mapping
       (staticResolveIssue c8mapping [] "AB-1").2.1 "AB-1" =
       ((staticResolveIssue c8mapping [] "AB-1").1,
        (staticResolveIssue c8mapping [] "AB-1").2.1, 0)) ∧
    (staticResolveIssue c8mapping [] "ZZ-9" = (.ok none, [], 1) ∧
     resolverResolveIssue ⟨true, true⟩ c8mapping [] "ZZ-9" = (.ok none, [], 1)) :=
  ⟨(c8_cache_behavior c8mapping [] "AB-1" (by decide) rfl).1 ⟨"123", "s"⟩ rfl,
   ⟨((c8_cache_behavior c8mapping [] "ZZ-9" (by decide) rfl).2 rfl).1,
    ((c8_cache_behavior c8mapping [] "ZZ-9" (by decide) rfl).2 rfl).2
      ⟨true, true⟩ rfl⟩⟩

/-! ## Claim C9: preliminary-phase errors divert to bulk creation -/

/-- Claim C9: when any error occurs in the execution phase before per-item
processing (author resolution or the fetch of existing worklogs; the
classifier itself is pure), the error is caught, the outcome is the bulk
fallback, and the remote trace is the preliminary calls followed by exactly
one create call per import entry — including delete-flagged entries — with no
classification and no delete or update calls. -/
theorem c9_prelim_error_bulk_creates (env : ApiEnv) (cfg : Config)
    (batch : List WorklogEntry) (h : prelimFails env = true) :
    executeWorklogOperationsModel env cfg batch =
      (.fallbackBulk batch, prelimCalls env batch ++ bulkCreateTrace batch) ∧
    bulkCreateTrace batch = batch.map (fun w =>
      .createWorklog w.issueKey w.hours w.startDate
        (jsOrStr w.startTime "09:00:00")
        (jsOrStr w.description ("Working on " ++ w.issueKey))) := by
  refine ⟨?_, rfl⟩
  unfold prelimFails at h
  unfold executeWorklogOperationsModel prelimCalls
  cases ha : executeAuthorPhase env with
  | mk res t =>
    cases res with
    | error e => rfl
    | ok a =>
      rw [ha] at h
      simp only [exceptIsOk, Bool.not_true, Bool.false_or] at h
      cases hw : env.worklogs with
      | error e => simp [List.append_assoc]
      | ok l => rw [hw] at h; simp [exceptIsOk] at h

def c9failEnv : ApiEnv :=
  ⟨.error "auth down", .error "no worklogs", .ok [], 2026, "2026-10-08"⟩

def c9entry : WorklogEntry :=
  ⟨"AB-1", some ⟨2, 1⟩, "w", "2026-03-02", "09:00:00", some "11:00:00", true⟩

/-- Witness for `c9_prelim_error_bulk_creates`: both author lookups fail, and
the batch contains a delete-flagged entry that is nevertheless created. -/
theorem c9_prelim_error_bulk_creates_witness :
    executeWorklogOperationsModel c9failEnv ⟨none, []⟩ [c9entry] =
      (.fallbackBulk [c9entry],
       prelimCalls c9failEnv [c9entry] ++ bulkCreateTrace [c9entry]) ∧
    bulkCreateTrace [c9entry] =
      [.createWorklog "AB-1" (some ⟨2, 1⟩) "2026-03-02" "09:00:00" "w"] :=
  ⟨(c9_prelim_error_bulk_creates c9failEnv ⟨none, []⟩ [c9entry] rfl).1, rfl⟩

/-! ## Claim C10: the replace executor's id safety filter -/

/-- Claim C10: during replace execution, delete calls are issued only for
conflicting worklogs whose id is at least 1374000 (ids below are skipped
unconditionally), and the replacement worklog of every replace operation is
still created. -/
theorem c10_replace_id_filter (ops : List ReplaceItem) :
    (∀ i : Nat, RemoteCall.deleteWorklog i ∈ executeReplaceTrace ops →
      1374000 ≤ i) ∧
    (∀ r ∈ ops, createCallOf r.newEntry ∈ executeReplaceTrace ops) := by
  constructor
  · intro i hi
    unfold executeReplaceTrace at hi
    obtain ⟨r, hr, hmem⟩ := List.mem_flatMap.1 hi
    rcases List.mem_append.1 hmem with h1 | h1
    · obtain ⟨c, hc, hci⟩ := List.mem_map.1 h1
      have hge : ¬ c.tempoWorklogId < 1374000 := by
        simpa using List.of_mem_filter hc
      cases hci
      omega
    · rcases List.mem_singleton.1 h1 with h2
      exact absurd h2 (by simp [createCallOf])
  · intro r hr
    unfold executeReplaceTrace
    exact List.mem_flatMap.2
      ⟨r, hr, List.mem_append.2 (Or.inr (List.mem_singleton.2 rfl))⟩

def c10op : ReplaceItem :=
  ⟨⟨"ZZ-9", some ⟨2, 1⟩, "n", "2026-03-02", "09:30:00", some "11:30:00", false⟩,
   [⟨5, some "d", ⟨1, 1⟩, "09:00:00", none⟩,
    ⟨1374001, some "d", ⟨1, 1⟩, "10:00:00", none⟩]⟩

/-- Witness for `c10_replace_id_filter`: a replace operation with one
skippable (id 5) and one deletable (id 1374001) conflicting worklog. -/
theorem c10_replace_id_filter_witness :
    1374000 ≤ 1374001 ∧
    createCallOf c10op.newEntry ∈ executeReplaceTrace [c10op] :=
  ⟨(c10_replace_id_filter [c10op]).1 1374001 (by decide),
   (c10_replace_id_filter [c10op]).2 c10op (by decide)⟩

/-! ## Claim C1: the internal conflict pass and exact duplicates -/

/-- The pairwise overlap check of `validateTimeConflicts` is symmetric. -/
theorem pairConflict_comm (d : String) (w1 w2 : WorklogEntry) :
    pairConflict d w1 w2 = pairConflict d w2 w1 := by
  unfold pairConflict
  cases h1 : lenientDT d w1.startTime <;>
    cases h2 : lenientDT d (jsTemplate w1.endTime) <;>
      cases h3 : lenientDT d w2.startTime <;>
        cases h4 : lenientDT d (jsTemplate w2.endTime) <;>
          first
            | rfl
            | (rw [decide_eq_decide]; exact and_comm)

def c1entry1 : WorklogEntry :=
  ⟨"AB-1", some ⟨8, 4⟩, "x", "2026-03-02", "09:00:00", some "11:00:00", false⟩

def c1entry2 : WorklogEntry :=
  ⟨"CD-2", some ⟨8, 4⟩, "y", "2026-03-02", "09:00:00", some "11:00:00", false⟩

/-- Claim C1, counterexample: two entries on the same date whose start and
end times are byte-identical are still flagged as one time conflict by the
internal pass (and the batch is rejected with a conflict error), although
the claim says a byte-identical pair is not flagged. -/
theorem c1_counterexample :
    conflictTotal [c1entry1, c1entry2] = 1 ∧
    c1entry1.startTime = c1entry2.startTime ∧
    c1entry1.endTime = c1entry2.endTime ∧
    validateTimeConflicts [c1entry1, c1entry2] = .error (conflictMsg 1) := by
  refine ⟨by decide, rfl, rfl, ?_⟩
  have h1 : invalidEntriesTotal [c1entry1, c1entry2] = 0 := by decide
  have h2 : conflictTotal [c1entry1, c1entry2] = 1 := by decide
  unfold validateTimeConflicts
  rw [h1, h2]
  rfl

/-- Claim C1 (amended): for a pair of canonical entries on the same date
(non-delete, with both time fields), the internal pass flags the pair as a
conflict exactly when their ranges overlap — with no exemption for pairs
whose start and end times are byte-identical; an exact duplicate therefore
counts as a conflict too. -/
theorem c1_pair_flagged_iff_overlap (e1 e2 : WorklogEntry)
    (hdate : e2.startDate = e1.startDate)
    (hd1 : e1.shouldDelete = false) (hd2 : e2.shouldDelete = false)
    (ht1 : entryTimesPresent e1 = true) (ht2 : entryTimesPresent e2 = true) :
    conflictTotal [e1, e2] =
      if pairConflict e1.startDate e1 e2 then 1 else 0 := by
  have hgroups : worklogsByDate [e1, e2] = [(e1.startDate, [e1, e2])] := by
    simp [worklogsByDate, hd1, hd2, ht1, ht2, addToGroups, hdate]
  unfold conflictTotal
  rw [hgroups]
  simp only [List.foldl_cons, List.foldl_nil, Nat.zero_add]
  by_cases hle : strLe e1.startTime e2.startTime = true
  · simp [sortByStart, insertByStart, hle, dayConflictCount,
      List.countP_cons, List.countP_nil]
  · simp only [sortByStart, List.foldl_cons, List.foldl_nil, insertByStart,
      hle, if_false, Bool.false_eq_true]
    simp [dayConflictCount, List.countP_cons, List.countP_nil,
      pairConflict_comm e1.startDate e2 e1]

/-- Witness for `c1_pair_flagged_iff_overlap`: a genuinely overlapping pair. -/
theorem c1_pair_flagged_iff_overlap_witness :
    conflictTotal
      [⟨"AB-1", some ⟨8, 4⟩, "x", "2026-03-02", "09:00:00", some "11:00:00", false⟩,
       ⟨"CD-2", some ⟨8, 4⟩, "y", "2026-03-02", "10:00:00", some "12:00:00", false⟩] =
      if pairConflict "2026-03-02"
        ⟨"AB-1", some ⟨8, 4⟩, "x", "2026-03-02", "09:00:00", some "11:00:00", false⟩
        ⟨"CD-2", some ⟨8, 4⟩, "y", "2026-03-02", "10:00:00", some "12:00:00", false⟩
      then 1 else 0 :=
  c1_pair_flagged_iff_overlap _ _ rfl rfl rfl (by decide) (by decide)

/-! ## Claim C2: an internal conflict blocks all remote calls -/

/-- Claim C2: for every batch whose normalized entries pass individual
validation but contain at least one internal time conflict, the import entry
point fails with the conflict error and its remote-call trace is empty: no
fetch, create, update or delete is ever issued, so remote state is
untouched. -/
theorem c2_internal_conflict_no_remote_calls (env : ApiEnv) (cfg : Config)
    (rows : List RawRow)
    (hvalid : invalidEntriesTotal (parsedEntries rows) = 0)
    (hconf : 0 < conflictTotal (parsedEntries rows)) :
    worklogImportModel env cfg rows =
      (.error (conflictMsg (conflictTotal (parsedEntries rows))), []) := by
  have hv : validateTimeConflicts (parsedEntries rows) =
      .error (conflictMsg (conflictTotal (parsedEntries rows))) := by
    unfold validateTimeConflicts
    rw [hvalid]
    rw [if_neg (by omega), if_pos hconf]
  simp only [worklogImportModel]
  rw [hv]

def c2row1 : RawRow :=
  ⟨some "2026-03-02", none, some "09:00:00", none, some "11:00:00",
    some "AB-1", none, none, some "w", none, none, none, none⟩

def c2row2 : RawRow :=
  ⟨some "2026-03-02", none, some "09:00:00", none, some "11:00:00",
    some "CD-2", none, none, some "v", none, none, none, none⟩

def c2env : ApiEnv := ⟨.ok "u", .ok none, .ok [], 2026, "2026-10-08"⟩

/-- Witness for `c2_internal_conflict_no_remote_calls`: two rows with the
same time range on the same date. -/
theorem c2_internal_conflict_no_remote_calls_witness :
    worklogImportModel c2env ⟨none, []⟩ [c2row1, c2row2] =
      (.error (conflictMsg (conflictTotal (parsedEntries [c2row1, c2row2]))), []) :=
  c2_internal_conflict_no_remote_calls c2env ⟨none, []⟩ [c2row1, c2row2]
    (by decide) (by decide)

/-! ## Claim C3: external overlaps never cancel the import -/

/-- Claim C3: once a batch passes the internal pass, overlaps with existing
remote records never cancel the import: on every run whose remote fetch and
author resolution succeed, `validateWorklogsForImport` reports no conflicts
(the decision reads a `length` property the returned analysis object does
not have, so the check is false whatever the overlap list contains), and
the run proceeds to the execution phase, whose classifier resolves the
overlapping records through replace operations. -/
theorem c3_external_overlaps_never_cancel (env : ApiEnv) (cfg : Config)
    (rows : List RawRow) (recs : List RemoteWorklog)
    (hfetch : env.worklogs = .ok recs)
    (hauthor : exceptIsOk (validateAuthorPhase env cfg).1 = true) :
    (validateWorklogsForImportModel env cfg (parsedEntries rows)).1 = false ∧
    (validateTimeConflicts (parsedEntries rows) = .ok () →
      (worklogImportModel env cfg rows).1 =
        .ok (executeWorklogOperationsModel env cfg (parsedEntries rows)).1) := by
  have hbatch : ∀ batch : List WorklogEntry,
      (validateWorklogsForImportModel env cfg batch).1 = false := by
    intro batch
    unfold validateWorklogsForImportModel
    cases hap : validateAuthorPhase env cfg with
    | mk res t =>
      cases res with
      | error u => rw [hap] at hauthor; simp [exceptIsOk] at hauthor
      | ok author => rw [hfetch]; rfl
  refine ⟨hbatch _, ?_⟩
  intro hok
  simp only [worklogImportModel]
  rw [hok]
  cases hvw : validateWorklogsForImportModel env cfg (parsedEntries rows) with
  | mk b t1 =>
    have hb : b = false := by
      have h := hbatch (parsedEntries rows)
      rw [hvw] at h
      exact h
    subst hb
    simp

def c3row : RawRow :=
  ⟨some "2026-03-02", none, some "09:30:00", none, some "11:30:00",
    some "ZZ-9", none, none, some "n", none, none, none, none⟩

def c3rec : RemoteWorklog :=
  ⟨42, "2026-03-02", some "09:00:00", 7200, some "Work",
    some ⟨some "user-1"⟩, some "user-1", none, some ⟨some "AB-1", some 5⟩⟩

def c3env : ApiEnv := ⟨.ok "user-1", .ok none, .ok [c3rec], 2026, "2026-10-08"⟩

/-- Witness for `c3_external_overlaps_never_cancel`: the import row overlaps
the existing record (the external pass reports one overlap), yet validation
reports no conflicts and the import proceeds; the classifier resolves the
overlap as a replace operation. -/
theorem c3_external_overlaps_never_cancel_witness :
    (overlapsAgainstExisting ⟨none, []⟩ (parsedEntries [c3row]) [c3rec]
        ≠ []) ∧
    (validateWorklogsForImportModel c3env ⟨none, []⟩
        (parsedEntries [c3row])).1 = false ∧
    (worklogImportModel c3env ⟨none, []⟩ [c3row]).1 =
      .ok (executeWorklogOperationsModel c3env ⟨none, []⟩
        (parsedEntries [c3row])).1 :=
  ⟨by decide,
   (c3_external_overlaps_never_cancel c3env ⟨none, []⟩ [c3row] [c3rec]
      rfl rfl).1,
   (c3_external_overlaps_never_cancel c3env ⟨none, []⟩ [c3row] [c3rec]
      rfl rfl).2 rfl⟩

/-! ## Claim C4: system-authored records are never mutation targets -/

/-- Claim C4: in every run, no remote record authored by the
system/anonymous sentinel appears as a delete target or inside the
conflicting-worklogs list of a replace operation: the classifier only ever
targets records of the filtered actionable set, and that set contains no
system-authored record. -/
theorem c4_no_system_targets (cfg : Config) (author : Option String)
    (cy : Nat) (tda : String) (batch : List WorklogEntry)
    (allRecs : List RemoteWorklog) (analysis : Option ConflictAnalysis) :
    (∀ w ∈ recentWorklogsFilter cy tda author allRecs,
      isSystemWorklog w = false) ∧
    (∀ i ∈ targetIds (categorizeWorklogOperations cfg author batch
        (recentWorklogsFilter cy tda author allRecs) analysis),
      ∃ w ∈ recentWorklogsFilter cy tda author allRecs,
        w.tempoWorklogId = i ∧ isSystemWorklog w = false) := by
  have hkeep : ∀ w ∈ recentWorklogsFilter cy tda author allRecs,
      isSystemWorklog w = false := by
    intro w hw
    exact keepRecent_not_system (List.of_mem_filter hw)
  refine ⟨hkeep, ?_⟩
  intro i hi
  unfold targetIds at hi
  rcases List.mem_append.1 hi with h1 | h1
  · obtain ⟨d, hd, hdi⟩ := List.mem_map.1 h1
    simp only [categorizeWorklogOperations] at hd
    obtain ⟨e, he, hfe⟩ := List.mem_filterMap.1 hd
    cases hce : classifyEntry cfg author (recentWorklogsFilter cy tda author allRecs)
        (buildExistingMap cfg author (recentWorklogsFilter cy tda author allRecs))
        (overlapMapOf analysis) e with
    | deleteOp r =>
      rw [hce] at hfe
      simp only [Option.some.injEq] at hfe
      refine ⟨r, classifyEntry_delete_mem hce, ?_,
        hkeep r (classifyEntry_delete_mem hce)⟩
      rw [← hdi, ← hfe]
    | deleteSkipped => rw [hce] at hfe; simp at hfe
    | replaceOp cs => rw [hce] at hfe; simp at hfe
    | addOp => rw [hce] at hfe; simp at hfe
    | noChangeOp => rw [hce] at hfe; simp at hfe
    | updateOp r => rw [hce] at hfe; simp at hfe
  · obtain ⟨rop, hrop, hmem2⟩ := List.mem_flatMap.1 h1
    obtain ⟨c, hc, hci⟩ := List.mem_map.1 hmem2
    simp only [categorizeWorklogOperations] at hrop
    obtain ⟨e, he, hfe⟩ := List.mem_filterMap.1 hrop
    cases hce : classifyEntry cfg author (recentWorklogsFilter cy tda author allRecs)
        (buildExistingMap cfg author (recentWorklogsFilter cy tda author allRecs))
        (overlapMapOf analysis) e with
    | deleteOp r => rw [hce] at hfe; simp at hfe
    | deleteSkipped => rw [hce] at hfe; simp at hfe
    | replaceOp cs =>
      rw [hce] at hfe
      simp only [Option.some.injEq] at hfe
      have hcs : c ∈ cs := by
        have : rop.conflictingWorklogs = cs := by rw [← hfe]
        rw [← this]
        exact hc
      obtain ⟨w, hw, hwid⟩ := classifyEntry_replace_mem hce c hcs
      exact ⟨w, hw, by rw [hwid, hci], hkeep w hw⟩
    | addOp => rw [hce] at hfe; simp at hfe
    | noChangeOp => rw [hce] at hfe; simp at hfe
    | updateOp r => rw [hce] at hfe; simp at hfe

def c4delEntry : WorklogEntry :=
  ⟨"AB-1", some ⟨8, 4⟩, "", "2026-03-02", "09:00:00", some "11:00:00", true⟩

def c4rec : RemoteWorklog :=
  ⟨42, "2026-03-02", some "09:00:00", 7200, some "Work",
    some ⟨some "user-1"⟩, some "user-1", none, some ⟨some "AB-1", some 5⟩⟩

/-- Witness for `c4_no_system_targets`: a delete entry whose target (id 42)
is found in the filtered set and is not system-authored. -/
theorem c4_no_system_targets_witness :
    ∃ w ∈ recentWorklogsFilter 2026 "2026-10-08" (some "user-1") [c4rec],
      w.tempoWorklogId = 42 ∧ isSystemWorklog w = false :=
  (c4_no_system_targets ⟨none, []⟩ (some "user-1") 2026 "2026-10-08"
      [c4delEntry] [c4rec] none).2 42 (by decide)

end TempoBooker
